import Mathlib

/-!
Shallow embedding of `src/main.rs` of the `polen` repository: a single
Maelstrom-style node that turns one inbound JSON message into at most one
outbound reply while mutating its state.  JSON encoding/decoding and the
stdin/stdout streams are out of scope (external collaborators per the spec);
the embedding covers `Message`, `Body`, `Payload`, `Node`, `Message::reply`,
`Node::step` and the sequential dispatch loop of `main`.
-/

namespace Polen

/-- Embeds the Rust enum `Payload` (tagged union of message kinds).
The Rust `HashMap<String, Vec<String>>` of `Topology` is embedded as an
association list; the dispatch engine never inspects it. -/
inductive Payload where
  | Init (node_id : String) (node_ids : List String)
  | InitOk
  | Echo (echo : String)
  | EchoOk (echo : String)
  | Generate
  | GenerateOk (id : String)
  | Broadcast (message : Nat)
  | BroadcastOk
  | Read
  | ReadOk (messages : List Nat)
  | Topology (topology : List (String × List String))
  | TopologyOk
  deriving DecidableEq

/-- Embeds the Rust struct `Body`: optional correlation ids plus the payload. -/
structure Body where
  msg_id : Option Nat
  in_reply_to : Option Nat
  payload : Payload
  deriving DecidableEq

/-- Embeds the Rust struct `Message`: one directed envelope. -/
structure Message where
  src : String
  dest : String
  body : Body
  deriving DecidableEq

/-- Embeds the Rust struct `Node`: the process-lifetime mutable state. -/
structure Node where
  node_id : Option String
  msg_id : Nat
  messages : List Nat
  deriving DecidableEq

/-- Termination causes of the Rust process inside `step`/`reply`:
`expectFailed` embeds a panicking `.expect(msg)` on a `None` value, and
`bailed` embeds `bail!(msg)`.  Either one aborts the run. -/
inductive Err where
  | expectFailed (msg : String)
  | bailed (msg : String)
  deriving DecidableEq

/-- Decimal digit characters of `n`, most significant first, accumulated onto
`acc`; the fuel argument only bounds the recursion (callers pass `n + 1`,
which always suffices). -/
def decCharsAux : Nat → Nat → List Char → List Char
  | 0, _, acc => acc
  | fuel + 1, n, acc =>
    if n < 10 then Nat.digitChar n :: acc
    else decCharsAux fuel (n / 10) (Nat.digitChar (n % 10) :: acc)

/-- Decimal digit characters of `n`, most significant first. -/
def decChars (n : Nat) : List Char :=
  decCharsAux (n + 1) n []

/-- Embeds Rust's `Display` formatting of a `usize`: its decimal rendering. -/
def natDecimal (n : Nat) : String :=
  ⟨decChars n⟩

/-- Embeds `format!("{}#{}", node_id, msg_id)` from the `Generate` arm of
`Node::step`. -/
def genId (nid : String) (m : Nat) : String :=
  nid ++ "#" ++ natDecimal m

/-- Embeds `Message::reply`: builds the reply envelope (src = this node's id,
dest = the request's sender, `msg_id` = the pre-increment counter,
`in_reply_to` = the request body's `msg_id`), emits it, and increments
`node.msg_id` by one.  The `.expect("node to be initialized")` on
`node.node_id` becomes the `expectFailed` error. -/
def Message.reply (self : Message) (node : Node) (payload : Payload) :
    Except Err (Message × Node) :=
  match node.node_id with
  | none => .error (.expectFailed "node to be initialized")
  | some nid =>
    .ok (⟨nid, self.src,
          ⟨some node.msg_id, self.body.msg_id, payload⟩⟩,
         { node with msg_id := node.msg_id + 1 })

/-- Lifts the result of `Message.reply` into the result type of `Node.step`,
recording that a reply was emitted (the Rust `?` on `input.reply(...)`). -/
def asReply : Except Err (Message × Node) → Except Err (Option Message × Node)
  | .error e => .error e
  | .ok (m, n) => .ok (some m, n)

/-- Embeds `Node::step`: the dispatch engine.  Given the current state and one
inbound message it returns the emitted reply (if any) and the new state, or
the error that aborts the process. -/
def Node.step (node : Node) (input : Message) :
    Except Err (Option Message × Node) :=
  match input.body.payload with
  | .Init nid _ =>
    let node := { node with node_id := some nid }
    asReply (input.reply node .InitOk)
  | .InitOk => .error (.bailed "node received init_ok message")
  | .Echo e => asReply (input.reply node (.EchoOk e))
  | .EchoOk _ => .ok (none, node)
  | .Generate =>
    match node.node_id with
    | none => .error (.expectFailed "node to be initialized")
    | some nid => asReply (input.reply node (.GenerateOk (genId nid node.msg_id)))
  | .GenerateOk _ => .error (.bailed "node received generate_ok message")
  | .Broadcast m =>
    let node := { node with messages := node.messages ++ [m] }
    asReply (input.reply node .BroadcastOk)
  | .BroadcastOk => .ok (none, node)
  | .Read => asReply (input.reply node (.ReadOk node.messages))
  | .ReadOk _ => .ok (none, node)
  | .Topology _ => asReply (input.reply node .TopologyOk)
  | .TopologyOk => .ok (none, node)

/-- Embeds the loop of `main`: feeds each input to `Node.step` in order,
collecting the emitted replies; the first error aborts the run, so nothing is
emitted from that input on. -/
def run : Node → List Message → List Message × Option Err
  | _, [] => ([], none)
  | node, input :: rest =>
    match node.step input with
    | .error e => ([], some e)
    | .ok (none, node') => run node' rest
    | .ok (some reply, node') =>
      let r := run node' rest
      (reply :: r.1, r.2)

/-- Embeds the initial node state of `main`:
`Node { node_id: None, msg_id: 0, messages: Vec::new() }`. -/
def initNode : Node :=
  ⟨none, 0, []⟩

/-! ### Facts about the decimal rendering used by `genId` -/

theorem digitChar_toNat {d : Nat} (hd : d < 10) : (Nat.digitChar d).toNat = 48 + d := by
  interval_cases d <;> rfl

theorem digitChar_inj {d e : Nat} (hd : d < 10) (he : e < 10)
    (h : Nat.digitChar d = Nat.digitChar e) : d = e := by
  have h1 := congrArg Char.toNat h
  rw [digitChar_toNat hd, digitChar_toNat he] at h1
  omega

theorem digitChar_ne_hash {d : Nat} (hd : d < 10) : Nat.digitChar d ≠ '#' := by
  intro h
  have h1 := congrArg Char.toNat h
  rw [digitChar_toNat hd] at h1
  have h2 : Char.toNat '#' = 35 := rfl
  omega

/-- With enough fuel, `decCharsAux` computes the base-10 digits of a positive
number (most significant first) in front of its accumulator. -/
theorem decCharsAux_eq (fuel : Nat) : ∀ (n : Nat) (acc : List Char), n < fuel → 0 < n →
    decCharsAux fuel n acc = ((Nat.digits 10 n).map Nat.digitChar).reverse ++ acc := by
  induction fuel with
  | zero => intro n acc h; omega
  | succ fuel ih =>
    intro n acc hfuel hn
    by_cases h10 : n < 10
    · rw [decCharsAux, if_pos h10, Nat.digits_of_lt 10 n (by omega) h10]
      simp
    · rw [decCharsAux, if_neg h10]
      have hdiv : n / 10 < fuel := by
        have := Nat.div_lt_self hn (by omega : 1 < 10)
        omega
      have hpos : 0 < n / 10 := Nat.div_pos (by omega) (by omega)
      rw [ih (n / 10) _ hdiv hpos,
          Nat.digits_def' (by norm_num : (1:Nat) < 10) hn]
      simp

theorem decChars_eq (n : Nat) :
    decChars n = if n = 0 then ['0'] else ((Nat.digits 10 n).map Nat.digitChar).reverse := by
  by_cases h : n = 0
  · subst h; rfl
  · rw [if_neg h, decChars, decCharsAux_eq (n+1) n [] (by omega) (by omega)]
    simp

theorem hash_not_mem_decChars (n : Nat) : '#' ∉ decChars n := by
  rw [decChars_eq]
  by_cases h : n = 0
  · subst h; decide
  · rw [if_neg h]
    intro hmem
    rw [List.mem_reverse, List.mem_map] at hmem
    obtain ⟨d, hd, hdc⟩ := hmem
    exact digitChar_ne_hash (Nat.digits_lt_base (by norm_num) hd) hdc

theorem map_digitChar_inj : ∀ (l1 l2 : List Nat), (∀ x ∈ l1, x < 10) → (∀ x ∈ l2, x < 10) →
    l1.map Nat.digitChar = l2.map Nat.digitChar → l1 = l2 := by
  intro l1
  induction l1 with
  | nil => intro l2 _ _ h; cases l2 <;> simp_all
  | cons a l1 ih =>
    intro l2 h1 h2 h
    cases l2 with
    | nil => simp_all
    | cons b l2 =>
      simp only [List.map_cons, List.cons.injEq] at h
      have ha : a = b := digitChar_inj (h1 a (by simp)) (h2 b (by simp)) h.1
      have := ih l2 (fun x hx => h1 x (by simp [hx])) (fun x hx => h2 x (by simp [hx])) h.2
      simp [ha, this]

/-- The decimal rendering is injective. -/
theorem decChars_inj {m n : Nat} (h : decChars m = decChars n) : m = n := by
  rw [decChars_eq, decChars_eq] at h
  by_cases hm : m = 0 <;> by_cases hn : n = 0
  · omega
  · rw [if_pos hm, if_neg hn] at h
    exfalso
    have hlen : ((Nat.digits 10 n).map Nat.digitChar).reverse.length = 1 := by
      rw [← h]; rfl
    simp only [List.length_reverse, List.length_map] at hlen
    obtain ⟨d, hd⟩ := List.length_eq_one.mp hlen
    rw [hd] at h
    simp only [List.map_cons, List.map_nil, List.reverse_cons, List.reverse_nil,
      List.nil_append, List.cons.injEq] at h
    have hd10 : d < 10 := Nat.digits_lt_base (by norm_num) (by rw [hd]; simp)
    have hd0 : d = 0 := digitChar_inj hd10 (by norm_num)
      (show Nat.digitChar d = Nat.digitChar 0 from h.1.symm)
    exact hn (by rw [← Nat.ofDigits_digits 10 n, hd, hd0]; simp [Nat.ofDigits])
  · rw [if_neg hm, if_pos hn] at h
    exfalso
    have hlen : ((Nat.digits 10 m).map Nat.digitChar).reverse.length = 1 := by
      rw [h]; rfl
    simp only [List.length_reverse, List.length_map] at hlen
    obtain ⟨d, hd⟩ := List.length_eq_one.mp hlen
    rw [hd] at h
    simp only [List.map_cons, List.map_nil, List.reverse_cons, List.reverse_nil,
      List.nil_append, List.cons.injEq] at h
    have hd10 : d < 10 := Nat.digits_lt_base (by norm_num) (by rw [hd]; simp)
    have hd0 : d = 0 := digitChar_inj hd10 (by norm_num)
      (show Nat.digitChar d = Nat.digitChar 0 from h.1)
    exact hm (by rw [← Nat.ofDigits_digits 10 m, hd, hd0]; simp [Nat.ofDigits])
  · rw [if_neg hm, if_neg hn] at h
    have h1 := List.reverse_injective h
    have h2 := map_digitChar_inj _ _ (fun x hx => Nat.digits_lt_base (by norm_num) hx)
      (fun x hx => Nat.digits_lt_base (by norm_num) hx) h1
    rw [← Nat.ofDigits_digits 10 m, ← Nat.ofDigits_digits 10 n, h2]

/-- Splitting a character list at a separator that occurs in neither tail is
unambiguous. -/
theorem append_sep_inj (s : Char) : ∀ (a c b d : List Char), s ∉ b → s ∉ d →
    a ++ s :: b = c ++ s :: d → a = c ∧ b = d := by
  intro a
  induction a with
  | nil =>
    intro c b d hb hd h
    cases c with
    | nil => simp_all
    | cons x c =>
      simp only [List.nil_append, List.cons_append, List.cons.injEq] at h
      exfalso
      apply hb
      rw [h.2]
      simp
  | cons x a ih =>
    intro c b d hb hd h
    cases c with
    | nil =>
      simp only [List.cons_append, List.nil_append, List.cons.injEq] at h
      exfalso
      apply hd
      rw [← h.2]
      simp
    | cons y c =>
      simp only [List.cons_append, List.cons.injEq] at h
      obtain ⟨hac, hbd⟩ := ih c b d hb hd h.2
      exact ⟨by rw [h.1, hac], hbd⟩

/-- The generated identifiers are injective in the `(node_id, msg_id)` pair:
the decimal part carries no `#`, so the split at the last `#` is unambiguous. -/
theorem genId_inj {n1 n2 : String} {m1 m2 : Nat} (h : genId n1 m1 = genId n2 m2) :
    n1 = n2 ∧ m1 = m2 := by
  have hdata : n1.data ++ '#' :: decChars m1 = n2.data ++ '#' :: decChars m2 := by
    have h1 := congrArg String.data h
    simp only [genId, String.data_append, natDecimal] at h1
    simpa [List.append_assoc] using h1
  have hsplit := append_sep_inj '#' n1.data n2.data (decChars m1) (decChars m2)
    (hash_not_mem_decChars m1) (hash_not_mem_decChars m2) hdata
  exact ⟨congrArg String.mk hsplit.1, decChars_inj hsplit.2⟩


/-! ### Step characterization lemmas -/

theorem step_none_eq {node : Node} {input : Message} {node' : Node}
    (h : node.step input = .ok (none, node')) : node' = node := by
  rcases input with ⟨src, dest, ⟨mid, irt, payload⟩⟩
  cases payload <;>
    cases hn : node.node_id <;>
    simp_all [Node.step, Message.reply, asReply]

theorem step_some_core {node : Node} {input reply : Message} {node' : Node}
    (h : node.step input = .ok (some reply, node')) :
    reply.dest = input.src ∧
    reply.body.msg_id = some node.msg_id ∧
    reply.body.in_reply_to = input.body.msg_id ∧
    some reply.src = node'.node_id ∧
    node'.msg_id = node.msg_id + 1 := by
  rcases input with ⟨src, dest, ⟨mid, irt, payload⟩⟩
  cases payload <;>
    cases hn : node.node_id <;>
    simp_all [Node.step, Message.reply, asReply] <;>
    (try obtain ⟨rfl, rfl⟩ := h) <;>
    simp_all

theorem step_generateOk {node : Node} {input reply : Message} {node' : Node} {s : String}
    (h : node.step input = .ok (some reply, node'))
    (hp : reply.body.payload = .GenerateOk s) :
    ∃ nid, node.node_id = some nid ∧ s = genId nid node.msg_id := by
  rcases input with ⟨src, dest, ⟨mid, irt, payload⟩⟩
  cases payload <;>
    cases hn : node.node_id <;>
    simp_all [Node.step, Message.reply, asReply] <;>
    obtain ⟨rfl, rfl⟩ := h <;>
    simp_all


/-! ### Run-level lemmas -/

theorem run_cons_error {node : Node} {input : Message} {rest : List Message} {e : Err}
    (h : node.step input = .error e) : run node (input :: rest) = ([], some e) := by
  simp only [run, h]

theorem run_cons_none {node node' : Node} {input : Message} {rest : List Message}
    (h : node.step input = .ok (none, node')) : run node (input :: rest) = run node' rest := by
  simp only [run, h]

theorem run_cons_some {node node' : Node} {input reply : Message} {rest : List Message}
    (h : node.step input = .ok (some reply, node')) :
    run node (input :: rest) = (reply :: (run node' rest).1, (run node' rest).2) := by
  simp only [run, h]

/-- Position `i` of the output stream carries `msg_id = node.msg_id + i`, and
if it is a `GenerateOk` its identifier is `genId` of some node id at that
counter value. -/
theorem run_outputs : ∀ (inputs : List Message) (node : Node) (i : Nat)
    (h : i < (run node inputs).1.length),
    ((run node inputs).1.get ⟨i, h⟩).body.msg_id = some (node.msg_id + i) ∧
    ∀ s, ((run node inputs).1.get ⟨i, h⟩).body.payload = .GenerateOk s →
      ∃ nid, s = genId nid (node.msg_id + i) := by
  intro inputs
  induction inputs with
  | nil => intro node i h; simp [run] at h
  | cons input rest ih =>
    intro node i h
    rcases hstep : node.step input with e | ⟨mo, node'⟩
    · rw [run_cons_error hstep] at h
      simp at h
    · cases mo with
      | none =>
        obtain rfl : node' = node := step_none_eq hstep
        have hfst : (run node' (input :: rest)).1 = (run node' rest).1 := by
          rw [run_cons_none hstep]
        have hlen : i < (run node' rest).1.length := hfst ▸ h
        have hget : ((run node' (input :: rest)).1.get ⟨i, h⟩)
            = ((run node' rest).1.get ⟨i, hlen⟩) := by
          simp only [List.get_eq_getElem]
          exact List.getElem_of_eq hfst h
        rw [hget]
        exact ih node' i hlen
      | some reply =>
        have hcore := step_some_core hstep
        have hlen : (run node (input :: rest)).1
            = reply :: (run node' rest).1 := by
          rw [run_cons_some hstep]
        cases i with
        | zero =>
          constructor
          · rw [show ((run node (input :: rest)).1.get ⟨0, h⟩) = reply by
              simp [List.get_eq_getElem]
              rw [List.getElem_of_eq hlen]
              simp]
            simpa using hcore.2.1
          · intro s hs
            rw [show ((run node (input :: rest)).1.get ⟨0, h⟩) = reply by
              simp [List.get_eq_getElem]
              rw [List.getElem_of_eq hlen]
              simp] at hs
            obtain ⟨nid, _, hgen⟩ := step_generateOk hstep hs
            exact ⟨nid, by simpa using hgen⟩
        | succ j =>
          have hj : j < (run node' rest).1.length := by
            have := h
            rw [hlen] at this
            simpa using this
          have hiheq : ((run node (input :: rest)).1.get ⟨j + 1, h⟩)
              = ((run node' rest).1.get ⟨j, hj⟩) := by
            simp only [List.get_eq_getElem]
            rw [List.getElem_of_eq hlen]
            simp
          have := ih node' j hj
          rw [hiheq]
          have hmsg : node'.msg_id = node.msg_id + 1 := hcore.2.2.2.2
          constructor
          · rw [this.1, hmsg]
            congr 1
            omega
          · intro s hs
            obtain ⟨nid, hgen⟩ := this.2 s hs
            exact ⟨nid, by rw [hgen, hmsg]; congr 1; omega⟩

/-! ### Per-arm step equations -/

theorem step_init_eq {node : Node} {input : Message} {nid : String} {nids : List String}
    (hp : input.body.payload = .Init nid nids) :
    node.step input
      = .ok (some ⟨nid, input.src, ⟨some node.msg_id, input.body.msg_id, .InitOk⟩⟩,
             ⟨some nid, node.msg_id + 1, node.messages⟩) := by
  rcases input with ⟨src, dest, ⟨mid, irt, payload⟩⟩
  cases payload <;> simp_all [Node.step, Message.reply, asReply]

theorem step_echo_eq {node : Node} {nid : String} {input : Message} {s : String}
    (hn : node.node_id = some nid) (hp : input.body.payload = .Echo s) :
    node.step input
      = .ok (some ⟨nid, input.src, ⟨some node.msg_id, input.body.msg_id, .EchoOk s⟩⟩,
             { node with msg_id := node.msg_id + 1 }) := by
  rcases input with ⟨src, dest, ⟨mid, irt, payload⟩⟩
  cases payload <;> simp_all [Node.step, Message.reply, asReply]

theorem step_generate_eq {node : Node} {nid : String} {input : Message}
    (hn : node.node_id = some nid) (hp : input.body.payload = .Generate) :
    node.step input
      = .ok (some ⟨nid, input.src,
                   ⟨some node.msg_id, input.body.msg_id, .GenerateOk (genId nid node.msg_id)⟩⟩,
             { node with msg_id := node.msg_id + 1 }) := by
  rcases input with ⟨src, dest, ⟨mid, irt, payload⟩⟩
  cases payload <;> simp_all [Node.step, Message.reply, asReply]

theorem step_broadcast_eq {node : Node} {nid : String} {input : Message} {v : Nat}
    (hn : node.node_id = some nid) (hp : input.body.payload = .Broadcast v) :
    node.step input
      = .ok (some ⟨nid, input.src, ⟨some node.msg_id, input.body.msg_id, .BroadcastOk⟩⟩,
             ⟨some nid, node.msg_id + 1, node.messages ++ [v]⟩) := by
  rcases input with ⟨src, dest, ⟨mid, irt, payload⟩⟩
  cases payload <;> simp_all [Node.step, Message.reply, asReply]

theorem step_read_eq {node : Node} {nid : String} {input : Message}
    (hn : node.node_id = some nid) (hp : input.body.payload = .Read) :
    node.step input
      = .ok (some ⟨nid, input.src, ⟨some node.msg_id, input.body.msg_id, .ReadOk node.messages⟩⟩,
             { node with msg_id := node.msg_id + 1 }) := by
  rcases input with ⟨src, dest, ⟨mid, irt, payload⟩⟩
  cases payload <;> simp_all [Node.step, Message.reply, asReply]

theorem step_topology_eq {node : Node} {nid : String} {input : Message}
    {t : List (String × List String)}
    (hn : node.node_id = some nid) (hp : input.body.payload = .Topology t) :
    node.step input
      = .ok (some ⟨nid, input.src, ⟨some node.msg_id, input.body.msg_id, .TopologyOk⟩⟩,
             { node with msg_id := node.msg_id + 1 }) := by
  rcases input with ⟨src, dest, ⟨mid, irt, payload⟩⟩
  cases payload <;> simp_all [Node.step, Message.reply, asReply]

theorem step_needs_node_id {node : Node} {input : Message}
    (hn : node.node_id = none)
    (hp : input.body.payload = .Generate ∨ (∃ s, input.body.payload = .Echo s)
      ∨ (∃ v, input.body.payload = .Broadcast v) ∨ input.body.payload = .Read
      ∨ (∃ t, input.body.payload = .Topology t)) :
    node.step input = .error (.expectFailed "node to be initialized") := by
  rcases input with ⟨src, dest, ⟨mid, irt, payload⟩⟩
  cases payload <;> simp_all [Node.step, Message.reply, asReply]

/-- Broadcast request as the harness would send it (correlation ids absent). -/
def mkBroadcast (src dst : String) (v : Nat) : Message :=
  ⟨src, dst, ⟨none, none, .Broadcast v⟩⟩

/-- Read request as the harness would send it (correlation ids absent). -/
def mkRead (src dst : String) : Message :=
  ⟨src, dst, ⟨none, none, .Read⟩⟩

/-- Running a block of Broadcast requests emits one BroadcastOk per request,
with consecutive counter values, and appends the values to the stored
messages in arrival order. -/
theorem run_broadcasts (vs : List Nat) : ∀ (nid src dst : String) (mid : Nat) (acc : List Nat)
    (rest : List Message),
    run ⟨some nid, mid, acc⟩ ((vs.map (mkBroadcast src dst)) ++ rest)
      = (((List.range vs.length).map
            fun i => ⟨nid, src, ⟨some (mid + i), none, .BroadcastOk⟩⟩)
          ++ (run ⟨some nid, mid + vs.length, acc ++ vs⟩ rest).1,
         (run ⟨some nid, mid + vs.length, acc ++ vs⟩ rest).2) := by
  induction vs with
  | nil => intro nid src dst mid acc rest; simp
  | cons v vs ih =>
    intro nid src dst mid acc rest
    have hstep : (⟨some nid, mid, acc⟩ : Node).step (mkBroadcast src dst v)
        = .ok (some ⟨nid, src, ⟨some mid, none, .BroadcastOk⟩⟩,
               ⟨some nid, mid + 1, acc ++ [v]⟩) := rfl
    rw [List.map_cons, List.cons_append, run_cons_some hstep,
        ih nid src dst (mid + 1) (acc ++ [v]) rest]
    have harith : ∀ i : Nat, mid + 1 + i = mid + (i + 1) := by omega
    have hlen : mid + 1 + vs.length = mid + (vs.length + 1) := by omega
    simp [List.range_succ_eq_map, List.map_map, Function.comp, harith, hlen,
      List.append_assoc]

/-! ### Sample values used to instantiate the claim theorems -/

def sampleNode : Node := ⟨some "n1", 5, [3]⟩

def echoMsg : Message := ⟨"c1", "n1", ⟨some 7, none, .Echo "hi"⟩⟩

def echoReply : Message := ⟨"n1", "c1", ⟨some 5, some 7, .EchoOk "hi"⟩⟩

def echoNode : Node := ⟨some "n1", 6, [3]⟩

def echoOkMsg : Message := ⟨"c1", "n1", ⟨none, none, .EchoOk "z"⟩⟩

def initMsg : Message := ⟨"c1", "n1", ⟨some 1, none, .Init "n2" ["n1", "n2"]⟩⟩

def generateMsg : Message := ⟨"c1", "n1", ⟨some 2, none, .Generate⟩⟩

def initOkMsg : Message := ⟨"c1", "n1", ⟨some 3, none, .InitOk⟩⟩

def generateOkMsg : Message := ⟨"c1", "n1", ⟨some 4, none, .GenerateOk "x#0"⟩⟩

def topoMsg1 : Message := ⟨"c1", "n1", ⟨some 5, none, .Topology [("n1", ["n2"])]⟩⟩

def topoMsg2 : Message := ⟨"c1", "n1", ⟨some 5, none, .Topology [("n1", ["n3"])]⟩⟩

def broadcastMsg : Message := ⟨"c1", "n1", ⟨some 6, none, .Broadcast 9⟩⟩

/-! ### The claims -/

/-- C1: starting from the initial node state (`msg_id = 0`), the body
`msg_id` values carried by the emitted replies are exactly `0, 1, ..., N-1`
in emission order, with no repeats and no gaps; each emitted reply increments
`node.msg_id` by exactly one, and a dispatch that emits no reply leaves
`msg_id` unchanged. -/
theorem C1_counter_monotonic :
    (∀ inputs : List Message,
      (run initNode inputs).1.map (fun m => m.body.msg_id)
        = (List.range (run initNode inputs).1.length).map some)
    ∧ (∀ (node : Node) (input reply : Message) (node' : Node),
        node.step input = .ok (some reply, node') →
          reply.body.msg_id = some node.msg_id ∧ node'.msg_id = node.msg_id + 1)
    ∧ (∀ (node : Node) (input : Message) (node' : Node),
        node.step input = .ok (none, node') → node'.msg_id = node.msg_id) := by
  refine ⟨?_, ?_, ?_⟩
  · intro inputs
    apply List.ext_get
    · simp
    · intro i h1 h2
      have h3 := (run_outputs inputs initNode i (by simpa using h1)).1
      simp only [List.get_eq_getElem] at h3
      simp only [List.get_eq_getElem, List.getElem_map, List.getElem_range]
      rw [h3]
      simp [initNode]
  · intro node input reply node' h
    exact ⟨(step_some_core h).2.1, (step_some_core h).2.2.2.2⟩
  · intro node input node' h
    rw [step_none_eq h]

/-- C1 witness: the hypothesis-bearing conjuncts instantiated on a concrete
echo dispatch (reply carries the pre-increment counter. the counter advances
by one) and a concrete no-reply dispatch (counter unchanged). -/
theorem C1_counter_monotonic_witness :
    (echoReply.body.msg_id = some sampleNode.msg_id
      ∧ echoNode.msg_id = sampleNode.msg_id + 1)
    ∧ sampleNode.msg_id = sampleNode.msg_id :=
  ⟨C1_counter_monotonic.2.1 sampleNode echoMsg echoReply echoNode rfl,
   C1_counter_monotonic.2.2 sampleNode echoOkMsg sampleNode rfl⟩

/-- C2: every answered request gets a reply whose `src` is the node's own id
(the post-dispatch `node_id`), whose `dest` is the request's `src`, whose
body `msg_id` is the pre-increment counter, and whose `in_reply_to` equals
the request body's `msg_id` whenever the request carried one. -/
theorem C2_reply_correlation :
    ∀ (node : Node) (input reply : Message) (node' : Node),
      node.step input = .ok (some reply, node') →
        some reply.src = node'.node_id
        ∧ reply.dest = input.src
        ∧ reply.body.msg_id = some node.msg_id
        ∧ ∀ i, input.body.msg_id = some i → reply.body.in_reply_to = some i := by
  intro node input reply node' h
  have hc := step_some_core h
  exact ⟨hc.2.2.2.1, hc.1, hc.2.1, fun i hi => by rw [hc.2.2.1, hi]⟩

/-- C2 witness: the correlation facts instantiated on a concrete echo
dispatch. -/
theorem C2_reply_correlation_witness :
    some echoReply.src = echoNode.node_id
    ∧ echoReply.dest = echoMsg.src
    ∧ echoReply.body.msg_id = some sampleNode.msg_id
    ∧ echoReply.body.in_reply_to = some 7 := by
  have h := C2_reply_correlation sampleNode echoMsg echoReply echoNode rfl
  exact ⟨h.1, h.2.1, h.2.2.1, h.2.2.2 7 (by decide)⟩

/-- C3: a Generate request on an initialized node is answered with GenerateOk
whose id is `node_id ++ "#" ++ decimal msg_id`; the generated identifier is
injective in the `(node_id, msg_id)` pair; and any two replies at distinct
positions of one run that carry GenerateOk payloads carry distinct
identifiers. -/
theorem C3_generate_unique :
    (∀ (node : Node) (nid : String) (input : Message),
      node.node_id = some nid → input.body.payload = .Generate →
      node.step input
        = .ok (some ⟨nid, input.src,
                     ⟨some node.msg_id, input.body.msg_id,
                      .GenerateOk (genId nid node.msg_id)⟩⟩,
               { node with msg_id := node.msg_id + 1 }))
    ∧ (∀ (n1 n2 : String) (m1 m2 : Nat),
        (n1, m1) ≠ (n2, m2) → genId n1 m1 ≠ genId n2 m2)
    ∧ (∀ (inputs : List Message) (node : Node) (i j : Nat)
        (hi : i < (run node inputs).1.length) (hj : j < (run node inputs).1.length)
        (s t : String),
        i ≠ j →
        ((run node inputs).1.get ⟨i, hi⟩).body.payload = .GenerateOk s →
        ((run node inputs).1.get ⟨j, hj⟩).body.payload = .GenerateOk t →
        s ≠ t) := by
  refine ⟨fun node nid input hn hp => step_generate_eq hn hp, ?_, ?_⟩
  · intro n1 n2 m1 m2 hne hgen
    obtain ⟨h1, h2⟩ := genId_inj hgen
    exact hne (by rw [h1, h2])
  · intro inputs node i j hi hj s t hij hs ht hst
    obtain ⟨nid1, hs1⟩ := (run_outputs inputs node i hi).2 s hs
    obtain ⟨nid2, ht1⟩ := (run_outputs inputs node j hj).2 t ht
    rw [hs1, ht1] at hst
    have := (genId_inj hst).2
    omega

/-- C3 witness: a concrete Generate dispatch produces `GenerateOk "n1#5"`,
and two distinct node ids at the same counter generate distinct ids. -/
theorem C3_generate_unique_witness :
    sampleNode.step generateMsg
      = .ok (some ⟨"n1", generateMsg.src,
                   ⟨some sampleNode.msg_id, generateMsg.body.msg_id,
                    .GenerateOk (genId "n1" sampleNode.msg_id)⟩⟩,
             { sampleNode with msg_id := sampleNode.msg_id + 1 })
    ∧ genId "n1" 3 ≠ genId "n2" 3 :=
  ⟨C3_generate_unique.1 sampleNode "n1" generateMsg rfl rfl,
   C3_generate_unique.2.1 "n1" "n2" 3 3 (by decide)⟩

/-- C4: a Generate request — or any other request whose reply must be
constructed — arriving while `node_id` is unset fails fatally: `step` returns
the expect-failure, no reply of any kind is emitted, and the run processes no
further input. -/
theorem C4_uninit_fatal :
    ∀ (node : Node) (input : Message) (rest : List Message),
      node.node_id = none →
      (input.body.payload = .Generate ∨ (∃ s, input.body.payload = .Echo s)
        ∨ (∃ v, input.body.payload = .Broadcast v) ∨ input.body.payload = .Read
        ∨ (∃ t, input.body.payload = .Topology t)) →
      node.step input = .error (.expectFailed "node to be initialized")
      ∧ run node (input :: rest) = ([], some (.expectFailed "node to be initialized")) := by
  intro node input rest hn hp
  have h := step_needs_node_id hn hp
  exact ⟨h, run_cons_error h⟩

/-- C4 witness: Generate as very first input on the fresh node is fatal and
yields an empty output stream. -/
theorem C4_uninit_fatal_witness :
    initNode.step generateMsg = .error (.expectFailed "node to be initialized")
    ∧ run initNode [generateMsg] = ([], some (.expectFailed "node to be initialized")) :=
  C4_uninit_fatal initNode generateMsg [] rfl (Or.inl rfl)

/-- C5: receiving InitOk or GenerateOk is fatal: `step` returns the bail
error instead of a reply, and the run halts with no further replies. -/
theorem C5_unexpected_reply_fatal :
    ∀ (node : Node) (input : Message) (rest : List Message),
      (input.body.payload = .InitOk →
        node.step input = .error (.bailed "node received init_ok message")
        ∧ run node (input :: rest) = ([], some (.bailed "node received init_ok message")))
      ∧ ∀ s, input.body.payload = .GenerateOk s →
        node.step input = .error (.bailed "node received generate_ok message")
        ∧ run node (input :: rest)
            = ([], some (.bailed "node received generate_ok message")) := by
  intro node input rest
  constructor
  · intro hp
    have h : node.step input = .error (.bailed "node received init_ok message") := by
      rcases input with ⟨src, dest, ⟨mid, irt, payload⟩⟩
      cases payload <;> simp_all [Node.step]
    exact ⟨h, run_cons_error h⟩
  · intro s hp
    have h : node.step input = .error (.bailed "node received generate_ok message") := by
      rcases input with ⟨src, dest, ⟨mid, irt, payload⟩⟩
      cases payload <;> simp_all [Node.step]
    exact ⟨h, run_cons_error h⟩

/-- C5 witness: concrete InitOk and GenerateOk inputs each abort the run with
no replies at all. -/
theorem C5_unexpected_reply_fatal_witness :
    (sampleNode.step initOkMsg = .error (.bailed "node received init_ok message")
      ∧ run sampleNode [initOkMsg] = ([], some (.bailed "node received init_ok message")))
    ∧ (sampleNode.step generateOkMsg
        = .error (.bailed "node received generate_ok message")
      ∧ run sampleNode [generateOkMsg]
          = ([], some (.bailed "node received generate_ok message"))) :=
  ⟨(C5_unexpected_reply_fatal sampleNode initOkMsg []).1 rfl,
   (C5_unexpected_reply_fatal sampleNode generateOkMsg []).2 "x#0" rfl⟩

/-- C6: each Broadcast appends its value to `node.messages` and is answered
with BroadcastOk; a run of Broadcasts `v1 ... vk` (duplicates preserved,
arrival order kept) followed by Read emits k BroadcastOk replies and then a
ReadOk carrying exactly `[v1, ..., vk]` — and that ReadOk element is the same
whatever inputs follow, so later Broadcasts do not alter the snapshot. -/
theorem C6_broadcast_read :
    (∀ (node : Node) (nid : String) (input : Message) (v : Nat),
      node.node_id = some nid → input.body.payload = .Broadcast v →
      node.step input
        = .ok (some ⟨nid, input.src, ⟨some node.msg_id, input.body.msg_id, .BroadcastOk⟩⟩,
               ⟨some nid, node.msg_id + 1, node.messages ++ [v]⟩))
    ∧ (∀ (nid src dst : String) (mid : Nat) (vs : List Nat) (rest : List Message),
      ∃ tail e,
        run ⟨some nid, mid, []⟩ ((vs.map (mkBroadcast src dst)) ++ mkRead src dst :: rest)
          = (((List.range vs.length).map
                fun i => ⟨nid, src, ⟨some (mid + i), none, .BroadcastOk⟩⟩)
              ++ ⟨nid, src, ⟨some (mid + vs.length), none, .ReadOk vs⟩⟩ :: tail, e)) := by
  refine ⟨fun node nid input v hn hp => step_broadcast_eq hn hp, ?_⟩
  intro nid src dst mid vs rest
  have hread : (⟨some nid, mid + vs.length, vs⟩ : Node).step (mkRead src dst)
      = .ok (some ⟨nid, src, ⟨some (mid + vs.length), none, .ReadOk vs⟩⟩,
             ⟨some nid, mid + vs.length + 1, vs⟩) := rfl
  refine ⟨(run ⟨some nid, mid + vs.length + 1, vs⟩ rest).1,
          (run ⟨some nid, mid + vs.length + 1, vs⟩ rest).2, ?_⟩
  rw [run_broadcasts vs nid src dst mid [] (mkRead src dst :: rest)]
  simp only [List.nil_append]
  rw [run_cons_some hread]

/-- C6 witness: a concrete Broadcast dispatch appends its value and is
answered with BroadcastOk. -/
theorem C6_broadcast_read_witness :
    sampleNode.step broadcastMsg
      = .ok (some ⟨"n1", broadcastMsg.src,
                   ⟨some sampleNode.msg_id, broadcastMsg.body.msg_id, .BroadcastOk⟩⟩,
             ⟨some "n1", sampleNode.msg_id + 1, sampleNode.messages ++ [9]⟩) :=
  C6_broadcast_read.1 sampleNode "n1" broadcastMsg 9 rfl rfl

/-- C7 counterexample: two Topology requests that differ only in their
topology mapping produce identical results — the same reply and, crucially,
the same successor state — so the mapping is not recorded into the node
state; the embedded `Node`, like the Rust struct, has no topology field at
all, refuting that `node.topology` is assigned verbatim. -/
theorem C7_topology_counterexample :
    topoMsg1.body.payload ≠ topoMsg2.body.payload
    ∧ sampleNode.step topoMsg1 = sampleNode.step topoMsg2
    ∧ sampleNode.step topoMsg1
        = .ok (some ⟨"n1", "c1", ⟨some 5, some 5, .TopologyOk⟩⟩, ⟨some "n1", 6, [3]⟩) :=
  ⟨by decide, rfl, rfl⟩

/-- C7 (amended): a Topology request on an initialized node is answered with
TopologyOk, and the topology mapping is discarded: the node state — which has
no topology field — is unchanged apart from the msg_id increment. -/
theorem C7_topology_amended :
    ∀ (node : Node) (nid : String) (input : Message) (t : List (String × List String)),
      node.node_id = some nid → input.body.payload = .Topology t →
      node.step input
        = .ok (some ⟨nid, input.src, ⟨some node.msg_id, input.body.msg_id, .TopologyOk⟩⟩,
               { node with msg_id := node.msg_id + 1 }) :=
  fun _ _ _ _ hn hp => step_topology_eq hn hp

/-- C7 amended witness: a concrete Topology dispatch. -/
theorem C7_topology_amended_witness :
    sampleNode.step topoMsg1
      = .ok (some ⟨"n1", topoMsg1.src,
                   ⟨some sampleNode.msg_id, topoMsg1.body.msg_id, .TopologyOk⟩⟩,
             { sampleNode with msg_id := sampleNode.msg_id + 1 }) :=
  C7_topology_amended sampleNode "n1" topoMsg1 [("n1", ["n2"])] rfl rfl

/-- C8: every Init request — also a second or later one — sets `node_id` to
the payload's node id, overwriting any previous value; `node_ids` is not
retained; the reply is InitOk and its `src` is the newly assigned
identifier. -/
theorem C8_init_overwrite :
    ∀ (node : Node) (input : Message) (nid : String) (nids : List String),
      input.body.payload = .Init nid nids →
      node.step input
        = .ok (some ⟨nid, input.src, ⟨some node.msg_id, input.body.msg_id, .InitOk⟩⟩,
               ⟨some nid, node.msg_id + 1, node.messages⟩) :=
  fun _ _ _ _ hp => step_init_eq hp

/-- C8 witness: a second Init on an already-initialized node overwrites
`node_id` with "n2" and the InitOk reply's `src` is "n2". -/
theorem C8_init_overwrite_witness :
    sampleNode.step initMsg
      = .ok (some ⟨"n2", initMsg.src,
                   ⟨some sampleNode.msg_id, initMsg.body.msg_id, .InitOk⟩⟩,
             ⟨some "n2", sampleNode.msg_id + 1, sampleNode.messages⟩) :=
  C8_init_overwrite sampleNode initMsg "n2" ["n1", "n2"] rfl

/-- C9: an Echo request on an initialized node is answered with an EchoOk
carrying the identical string, and the state is unchanged apart from the
msg_id increment (node_id and messages untouched). -/
theorem C9_echo_identity :
    ∀ (node : Node) (nid : String) (input : Message) (s : String),
      node.node_id = some nid → input.body.payload = .Echo s →
      node.step input
        = .ok (some ⟨nid, input.src, ⟨some node.msg_id, input.body.msg_id, .EchoOk s⟩⟩,
               { node with msg_id := node.msg_id + 1 }) :=
  fun _ _ _ _ hn hp => step_echo_eq hn hp

/-- C9 witness: a concrete Echo dispatch. -/
theorem C9_echo_identity_witness :
    sampleNode.step echoMsg
      = .ok (some ⟨"n1", echoMsg.src,
                   ⟨some sampleNode.msg_id, echoMsg.body.msg_id, .EchoOk "hi"⟩⟩,
             { sampleNode with msg_id := sampleNode.msg_id + 1 }) :=
  C9_echo_identity sampleNode "n1" echoMsg "hi" rfl rfl

/-- C10: a reply's `in_reply_to` is a verbatim copy of the request body's
optional `msg_id` — equal when present, absent when absent — and a request
without `msg_id` still receives a reply (then with `in_reply_to` absent). -/
theorem C10_in_reply_to_copy :
    (∀ (node : Node) (input reply : Message) (node' : Node),
      node.step input = .ok (some reply, node') →
        reply.body.in_reply_to = input.body.msg_id)
    ∧ (∀ (node : Node) (nid : String) (input : Message) (s : String),
      node.node_id = some nid → input.body.payload = .Echo s →
      input.body.msg_id = none →
      ∃ reply node', node.step input = .ok (some reply, node')
        ∧ reply.body.in_reply_to = none) := by
  constructor
  · intro node input reply node' h
    exact (step_some_core h).2.2.1
  · intro node nid input s hn hp hm
    exact ⟨_, _, step_echo_eq hn hp, by simp [hm]⟩

/-- C10 witness: in a concrete dispatch the reply copies the request's
`msg_id`, and a concrete id-less Echo still gets a reply with `in_reply_to`
absent. -/
theorem C10_in_reply_to_copy_witness :
    echoReply.body.in_reply_to = echoMsg.body.msg_id
    ∧ ∃ reply node',
        echoNode.step ⟨"c1", "n1", ⟨none, none, .Echo "z"⟩⟩ = .ok (some reply, node')
        ∧ reply.body.in_reply_to = none :=
  ⟨C10_in_reply_to_copy.1 sampleNode echoMsg echoReply echoNode rfl,
   C10_in_reply_to_copy.2 echoNode "n1" ⟨"c1", "n1", ⟨none, none, .Echo "z"⟩⟩ "z" rfl rfl rfl⟩

end Polen
